import Mathlib

/-! Verification of the market-signal pipeline of the agentic-hackathon plugin.

Shallow-embedding conventions:
- JS numbers obtained through parseFloat of decimal strings are modelled as
  rationals; JS bigint amounts are modelled as integers.
- JS Array.prototype.sort with a numeric comparator is a stable sort
  (ES2019 and later); it is modelled by List.insertionSort with the
  corresponding total preorder, which is also stable, so the two agree on
  every input.
- When a comparator evaluates to NaN, the ES SortCompare operation treats the
  result as +0, so every pair of elements compares as equal and the stable
  sort returns its input unchanged.
- A JS Map is modelled as an insertion-ordered association list: get is the
  first matching key, set updates in place or appends a fresh key at the end.
- File caches, logging and the network layer are outside the model; fetch
  results enter the model as explicit lists of rows.
-/

namespace Eliza

/-- Size bucket of a token snapshot (token-data.ts, TokenSize). -/
inductive TokenSize
  | small
  | medium
  | large
deriving DecidableEq, Repr

/-- Entry of token.whitelistPools in a TheGraph row (token-data.ts). -/
structure WhitelistPool where
  createdAtTimestamp : Int
  id : String
deriving DecidableEq, Repr

/-- Nested token object of a tokenHourDatas row (token-data.ts). -/
structure RawToken where
  id : String
  name : String
  symbol : String
  totalValueLocked : ℚ
  txCount : Int
  whitelistPools : List WhitelistPool
deriving DecidableEq, Repr

/-- One tokenHourDatas row as fetched from the upstream index
(token-data.ts, TheGraphTokenData). -/
structure TheGraphTokenData where
  priceUSD : ℚ
  totalValueLockedUSD : ℚ
  volumeUSD : ℚ
  periodStartUnix : Int
  totalValueLocked : ℚ
  token : RawToken
deriving DecidableEq, Repr

/-- Processed token snapshot (token-data.ts, TokenData). -/
structure TokenData where
  priceUSD : ℚ
  totalValueLockedUSD : ℚ
  volumeUSD : ℚ
  periodStartUnix : Int
  totalValueLocked : ℚ
  name : String
  symbol : String
  tokenTotalValueLocked : ℚ
  txCount : Int
  contractAddress : String
  created : Int
  size : TokenSize
deriving DecidableEq, Repr

/-- Number.MAX_SAFE_INTEGER, the sentinel of the created-timestamp reduce. -/
def maxSafeInteger : Int := 9007199254740991

/-- JS String.prototype.toUpperCase restricted to the ASCII range, as a
character list (token names and symbols). -/
def upperChars (s : String) : List Char := s.data.map Char.toUpper

/-- The characters of the stablecoin marker USD. -/
def usdChars : List Char := ['U', 'S', 'D']

/-- The characters of the marker ETH. -/
def ethChars : List Char := ['E', 'T', 'H']

/-- Does the first character list start the second one. -/
def startsWithChars : List Char → List Char → Bool
  | [], _ => true
  | _ :: _, [] => false
  | c :: cs, d :: ds => c == d && startsWithChars cs ds

/-- Does the needle occur as a contiguous run inside the haystack. -/
def containsChars (needle : List Char) : List Char → Bool
  | [] => startsWithChars needle []
  | c :: rest => startsWithChars needle (c :: rest) || containsChars needle rest

/-- JS includes on the uppercased string: the needle occurs as a contiguous
substring. -/
def containsUpper (needle : List Char) (s : String) : Bool :=
  containsChars needle (upperChars s)

/-- The filter predicate of fetchTokenDataForTimestamp: the token name and
symbol must be non-empty (JS falsiness of the empty string) and neither may
contain the substring USD or ETH after uppercasing. -/
def passesFilter (item : TheGraphTokenData) : Bool :=
  !(item.token.name == "") && !(item.token.symbol == "") &&
    !(containsUpper usdChars item.token.name) &&
    !(containsUpper ethChars item.token.name) &&
    !(containsUpper usdChars item.token.symbol) &&
    !(containsUpper ethChars item.token.symbol)

/-- The map callback of fetchTokenDataForTimestamp: the created timestamp is
the earliest whitelist-pool creation time computed by a reduce starting from
Number.MAX_SAFE_INTEGER, folded to 0 when the sentinel survives; the size
field receives the temporary value small. -/
def processRaw (item : TheGraphTokenData) : TokenData :=
  let created := item.token.whitelistPools.foldl
    (fun earliest pool =>
      if pool.createdAtTimestamp < earliest then pool.createdAtTimestamp else earliest)
    maxSafeInteger
  { priceUSD := item.priceUSD
    totalValueLockedUSD := item.totalValueLockedUSD
    volumeUSD := item.volumeUSD
    periodStartUnix := item.periodStartUnix
    totalValueLocked := item.totalValueLocked
    name := item.token.name
    symbol := item.token.symbol
    tokenTotalValueLocked := item.token.totalValueLocked
    txCount := item.token.txCount
    contractAddress := item.token.id
    created := if created = maxSafeInteger then 0 else created
    size := TokenSize.small }

/-- Relation of the numeric comparator that subtracts parseFloat of the
totalValueLockedUSD fields: a precedes b exactly when its TVL is at least
that of b, giving a descending stable sort. -/
def tvlDesc (a b : TokenData) : Prop :=
  b.totalValueLockedUSD ≤ a.totalValueLockedUSD

instance : DecidableRel tvlDesc :=
  fun a b => inferInstanceAs (Decidable (b.totalValueLockedUSD ≤ a.totalValueLockedUSD))

/-- The positional size label of the tertile assignment in
fetchTokenDataForTimestamp: index below third gives large, below twoThirds
gives medium, otherwise small. -/
def sizeAt (third twoThirds i : Nat) : TokenSize :=
  if i < third then TokenSize.large
  else if i < twoThirds then TokenSize.medium
  else TokenSize.small

/-- Recursion over the list carrying the running index, applying sizeAt to
each element, exactly as the indexed map of fetchTokenDataForTimestamp. -/
def assignSizesAux (third twoThirds : Nat) : Nat → List TokenData → List TokenData
  | _, [] => []
  | i, item :: rest =>
    { item with size := sizeAt third twoThirds i } :: assignSizesAux third twoThirds (i + 1) rest

/-- The size assignment of fetchTokenDataForTimestamp: third is the floor of
the length divided by 3 and twoThirds is third times 2. -/
def assignSizes (l : List TokenData) : List TokenData :=
  assignSizesAux (l.length / 3) (l.length / 3 * 2) 0 l

/-- Relation of the final sort of fetchTokenDataForTimestamp.  The comparator
subtracts the heatRatio fields of the two items, but heatRatio is never
computed on the produced objects, so in JS the comparator evaluates
undefined minus undefined, which is NaN; ES SortCompare maps a NaN comparator
result to +0, making every pair compare as equal, and the stable sort leaves
the list unchanged.  The always-true relation models exactly this behavior:
sorting by it is the identity. -/
def heatSortRel (_ _ : TokenData) : Prop := True

instance : DecidableRel heatSortRel := fun _ _ => Decidable.isTrue True.intro

/-- The processing pipeline of fetchTokenDataForTimestamp on a non-empty page
concatenation: filter, map, stable sort descending by TVL, tertile size
assignment, then the final (inert, see heatSortRel) heat-ratio sort. -/
def processRows (rows : List TheGraphTokenData) : List TokenData :=
  let processedData := (rows.filter passesFilter).map processRaw
  let sorted := List.insertionSort tvlDesc processedData
  let dataWithSizes := assignSizes sorted
  List.insertionSort heatSortRel dataWithSizes

/-- fetchTokenDataForTimestamp on the fresh-fetch path, rows being the
concatenation of the fetched pages (allData): null exactly when no row was
fetched, otherwise the processed pipeline result, which may itself be an
empty list when every row is filtered out.  The hour-bucket file cache only
ever holds non-empty previously returned results and is outside the model. -/
def fetchTokenDataForTimestamp (rows : List TheGraphTokenData) : Option (List TokenData) :=
  if rows.isEmpty then none else some (processRows rows)

/-- fetchAllTokens: use the current hour bucket, fall back to the previous
hour bucket when the current one returned null, and raise when both returned
null.  The JS truthiness test distinguishes null from an array: an empty
array is truthy and is returned as-is without retry. -/
def fetchAllTokens (currentRows previousRows : List TheGraphTokenData) :
    Except String (List TokenData) :=
  match fetchTokenDataForTimestamp currentRows with
  | some result => Except.ok result
  | none =>
    match fetchTokenDataForTimestamp previousRows with
    | some result => Except.ok result
    | none => Except.error "No data found for current or previous hour"

/-- calculateHeatRatio of the scoring module: volume divided by TVL when the
TVL is positive, otherwise 0. -/
def calculateHeatRatio (token : TokenData) : ℚ :=
  if 0 < token.totalValueLockedUSD then token.volumeUSD / token.totalValueLockedUSD else 0

/-- The five scoring weights (scoring module, ScoringWeights). -/
structure ScoringWeights where
  tvl : ℚ
  volume : ℚ
  netBuys : ℚ
  goodTrader : ℚ
  heat : ℚ
deriving DecidableEq, Repr

/-- DEFAULT_WEIGHTS of the scoring module. -/
def DEFAULT_WEIGHTS : ScoringWeights :=
  { tvl := 15 / 100
    volume := 15 / 100
    netBuys := 2 / 10
    goodTrader := 3 / 10
    heat := 2 / 10 }

/-- A caller-supplied Partial of ScoringWeights: every field optionally
overridden. -/
structure PartialScoringWeights where
  tvl : Option ℚ
  volume : Option ℚ
  netBuys : Option ℚ
  goodTrader : Option ℚ
  heat : Option ℚ
deriving DecidableEq, Repr

/-- The object-spread merge of dynamicScore: the override value wins whenever
the caller supplied the field, the default otherwise. -/
def mergeWeights (weights : PartialScoringWeights) : ScoringWeights :=
  { tvl := weights.tvl.getD DEFAULT_WEIGHTS.tvl
    volume := weights.volume.getD DEFAULT_WEIGHTS.volume
    netBuys := weights.netBuys.getD DEFAULT_WEIGHTS.netBuys
    goodTrader := weights.goodTrader.getD DEFAULT_WEIGHTS.goodTrader
    heat := weights.heat.getD DEFAULT_WEIGHTS.heat }

/-- The reduce over Object.values summing the five weights (the JS fold
starts from 0, dropped here since 0 + x = x). -/
def weightSum (w : ScoringWeights) : ℚ :=
  w.tvl + w.volume + w.netBuys + w.goodTrader + w.heat

/-- The normalization step of dynamicScore: every weight divided by the sum.
When the sum is 0 the JS division yields NaN; in the rational model division
by zero yields 0 — under both readings the normalized weights fail to sum
to 1 in that degenerate case. -/
def normalizeWeights (w : ScoringWeights) : ScoringWeights :=
  { tvl := w.tvl / weightSum w
    volume := w.volume / weightSum w
    netBuys := w.netBuys / weightSum w
    goodTrader := w.goodTrader / weightSum w
    heat := w.heat / weightSum w }

/-- The normalized weights computed at the top of dynamicScore from the
caller-supplied partial override. -/
def dynamicScoreWeights (weights : PartialScoringWeights) : ScoringWeights :=
  normalizeWeights (mergeWeights weights)

/-- scaleTo0to10 of the scoring module: the neutral midpoint 5 on a
degenerate range, otherwise the linear ratio (direction-flipped when invert
is set), scaled to 0..10 and clamped. -/
def scaleTo0to10 (val minVal maxVal : ℚ) (invert : Bool) : ℚ :=
  if maxVal = minVal then 5
  else
    let ratio :=
      if invert then (maxVal - val) / (maxVal - minVal)
      else (val - minVal) / (maxVal - minVal)
    let scaled := 10 * ratio
    max 0 (min 10 scaled)

/-- Token of a pool as returned by the pools query (swap-storer.ts, Token). -/
structure PToken where
  id : String
  symbol : String
deriving DecidableEq, Repr

/-- A liquidity pool (swap-storer.ts, Pool); the liquidity string is kept
verbatim, the storer never parses it. -/
structure Pool where
  id : String
  liquidity : String
  token0 : PToken
  token1 : PToken
deriving DecidableEq, Repr

/-- One directional leg of a stored swap (swap-storer.ts, the soldToken and
boughtToken objects); the bigint amount is an integer. -/
structure SwapLeg where
  address : String
  symbol : String
  amount : Int
deriving DecidableEq, Repr

/-- A stored swap record (swap-storer.ts, SwapData). -/
structure SwapRecord where
  timestamp : Int
  sender : String
  soldToken : SwapLeg
  boughtToken : SwapLeg
deriving DecidableEq, Repr

/-- Per-token running totals (swap-storer.ts, TokenSummary). -/
structure TokenSummary where
  symbol : String
  address : String
  totalSold : Int
  totalBought : Int
  swapCount : Nat
  netAmount : Int
deriving DecidableEq, Repr

/-- The BUY and SELL actions of a good-trader entry. -/
inductive TradeAction
  | buy
  | sell
deriving DecidableEq, Repr

/-- A good-trader activity entry (swap-storer.ts, GoodTraderSwap).  The
source stringifies the bigint amount; String on bigint is injective, so the
integer amount is kept. -/
structure GoodTraderSwap where
  trader : String
  timestamp : Int
  action : TradeAction
  token : SwapLeg
deriving DecidableEq, Repr

/-- JS String.prototype.toLowerCase restricted to the ASCII range. -/
def lower (s : String) : String := ⟨s.data.map Char.toLower⟩

/-- JS Map.get on an insertion-ordered association list. -/
def mapGet {β : Type} (m : List (String × β)) (k : String) : Option β :=
  match m with
  | [] => none
  | (key, v) :: rest => if key = k then some v else mapGet rest k

/-- JS Map.set on an insertion-ordered association list: update in place when
the key exists, otherwise append the fresh key at the end. -/
def mapSet {β : Type} (m : List (String × β)) (k : String) (v : β) : List (String × β) :=
  match m with
  | [] => [(k, v)]
  | (key, w) :: rest => if key = k then (k, v) :: rest else (key, w) :: mapSet rest k v

/-- The mutable fields of the SwapStorer instance touched by the verified
operations: the pool list, the per-pool swap history map and the derived
pool-address to token-pair index. -/
structure StorerState where
  pools : List Pool
  swapHistory : List (String × List SwapRecord)
  poolTokens : List (String × (PToken × PToken))
deriving DecidableEq, Repr

/-- The poolTokens update loop of prepopulatePools: one Map.set per fetched
pool, keyed by the lowercased pool id, over the existing index (the source
never clears the map first). -/
def insertPoolTokens (fetched : List Pool) (m : List (String × (PToken × PToken))) :
    List (String × (PToken × PToken)) :=
  fetched.foldl (fun acc pool => mapSet acc (lower pool.id) (pool.token0, pool.token1)) m

/-- prepopulatePools after a successful pagination run that accumulated the
fetched pools: the pool list is assigned wholesale and every fetched pool is
inserted into the poolTokens index.  The pools cache write is outside the
model. -/
def prepopulatePools (fetched : List Pool) (s : StorerState) : StorerState :=
  { s with
    pools := fetched
    poolTokens := insertPoolTokens fetched s.poolTokens }

/-- refreshPools: tear down the listener (outside the model), clear the pool
list, run prepopulatePools on the freshly fetched pools, re-create the
listener, then prune every swap-history list to the trailing 24 hours. -/
def refreshPools (now : Int) (fetched : List Pool) (s : StorerState) : StorerState :=
  let cleared := { s with pools := ([] : List Pool) }
  let populated := prepopulatePools fetched cleared
  let oneDayAgo := now - 24 * 60 * 60 * 1000
  { populated with
    swapHistory := populated.swapHistory.map
      (fun entry => (entry.1, entry.2.filter (fun record => oneDayAgo < record.timestamp))) }

/-- A decoded Swap event log as seen by the onLogs handler of createListener
(the price, liquidity, tick and recipient fields are unused there). -/
structure SwapLog where
  address : String
  sender : String
  amount0 : Int
  amount1 : Int
deriving DecidableEq, Repr

/-- The sold/bought normalization of the onLogs handler: when amount0 is
negative, token0 was sold (its amount negated to a positive value) and token1
bought with amount1 unchanged; otherwise token1 is treated as sold (amount1
negated) and token0 as bought with amount0 unchanged.  getAddress of viem is
a checksum re-formatting, modelled as the identity on addresses. -/
def decodeSwap (now : Int) (sender : String) (token0 token1 : PToken)
    (amount0 amount1 : Int) : SwapRecord :=
  if amount0 < 0 then
    { timestamp := now
      sender := sender
      soldToken := { address := token0.id, symbol := token0.symbol, amount := -amount0 }
      boughtToken := { address := token1.id, symbol := token1.symbol, amount := amount1 } }
  else
    { timestamp := now
      sender := sender
      soldToken := { address := token1.id, symbol := token1.symbol, amount := -amount1 }
      boughtToken := { address := token0.id, symbol := token0.symbol, amount := amount0 } }

/-- One iteration of the onLogs loop of createListener: look up the token
pair of the pool (the event is skipped when the lookup fails), normalize the
two signed legs into a swap record stamped with Date.now(), and append it to
the lazily created history list of that pool. -/
def handleLog (now : Int) (s : StorerState) (log : SwapLog) : StorerState :=
  let poolId := lower log.address
  match mapGet s.poolTokens poolId with
  | none => s
  | some pair =>
    let swap := decodeSwap now log.sender pair.1 pair.2 log.amount0 log.amount1
    let history := (mapGet s.swapHistory poolId).getD []
    { s with swapHistory := mapSet s.swapHistory poolId (history ++ [swap]) }

/-- updateTokenSummary of swap-storer.ts, restricted to its token-summary
mutation: read the running summary of the address (a zero summary when the
address is new), add the amount to the sold or bought total, adjust the net
amount in the corresponding direction, bump the swap count and write the
summary back.  The pruning of swapHistory performed at the top of the source
function touches only the swapHistory field and is independent of this
summary update. -/
def updateTokenSummary (summaries : List (String × TokenSummary))
    (address symbol : String) (amount : Int) (isSold : Bool) :
    List (String × TokenSummary) :=
  let summary := (mapGet summaries address).getD
    { symbol := symbol, address := address, totalSold := 0, totalBought := 0
      swapCount := 0, netAmount := 0 }
  let updated :=
    if isSold then
      { summary with
        totalSold := summary.totalSold + amount
        netAmount := summary.netAmount - amount }
    else
      { summary with
        totalBought := summary.totalBought + amount
        netAmount := summary.netAmount + amount }
  mapSet summaries address { updated with swapCount := updated.swapCount + 1 }

/-- Relation of the numeric comparator subtracting timestamps in
getGoodTraderActivity: descending by timestamp. -/
def tsDesc (a b : GoodTraderSwap) : Prop := b.timestamp ≤ a.timestamp

instance : DecidableRel tsDesc :=
  fun a b => inferInstanceAs (Decidable (b.timestamp ≤ a.timestamp))

instance : IsTotal GoodTraderSwap tsDesc :=
  ⟨fun a b => le_total b.timestamp a.timestamp⟩

instance : IsTrans GoodTraderSwap tsDesc :=
  ⟨fun _ _ _ hab hbc => le_trans hbc hab⟩

/-- The per-swap emission of getGoodTraderActivity: a swap older than the
trailing hour is skipped; a swap whose sender is on the allow-list
contributes one SELL entry carrying the sold leg followed by one BUY entry
carrying the bought leg; every other swap contributes nothing. -/
def projectSwap (allowList : List String) (oneHourAgo : Int) (swap : SwapRecord) :
    List GoodTraderSwap :=
  if swap.timestamp < oneHourAgo then []
  else if allowList.contains swap.sender then
    [ { trader := swap.sender, timestamp := swap.timestamp
        action := TradeAction.sell, token := swap.soldToken },
      { trader := swap.sender, timestamp := swap.timestamp
        action := TradeAction.buy, token := swap.boughtToken } ]
  else []

/-- The flattened swap records of the history map, in map iteration order. -/
def allSwaps (s : StorerState) : List SwapRecord :=
  (s.swapHistory.map Prod.snd).flatten

/-- getGoodTraderActivity: project every retained swap (allow-list and
trailing-hour filter) into SELL and BUY entries and sort the result
descending by timestamp; the allow-list from trading-wallets.json and
Date.now() are parameters. -/
def getGoodTraderActivity (allowList : List String) (now : Int) (s : StorerState) :
    List GoodTraderSwap :=
  let oneHourAgo := now - 60 * 60 * 1000
  let entries := (allSwaps s).flatMap (projectSwap allowList oneHourAgo)
  List.insertionSort tsDesc entries

/-! Concrete rows used by the evaluation theorems. -/

/-- A concrete upstream row: TVL 100, volume 10, heat ratio 1/10. -/
def rowTokenA : TheGraphTokenData :=
  { priceUSD := 1, totalValueLockedUSD := 100, volumeUSD := 10, periodStartUnix := 0,
    totalValueLocked := 100,
    token := { id := "0xaaa", name := "Alpha", symbol := "ALP",
               totalValueLocked := 100, txCount := 1, whitelistPools := [] } }

/-- A concrete upstream row: TVL 50, volume 40, heat ratio 4/5. -/
def rowTokenB : TheGraphTokenData :=
  { priceUSD := 1, totalValueLockedUSD := 50, volumeUSD := 40, periodStartUnix := 0,
    totalValueLocked := 50,
    token := { id := "0xbbb", name := "Beta", symbol := "BET",
               totalValueLocked := 50, txCount := 1, whitelistPools := [] } }

/-- The snapshot produced from rowTokenA (with two tokens both land in the
small bucket since the floor of 2/3 is 0). -/
def procTokenA : TokenData :=
  { priceUSD := 1, totalValueLockedUSD := 100, volumeUSD := 10, periodStartUnix := 0,
    totalValueLocked := 100, name := "Alpha", symbol := "ALP", tokenTotalValueLocked := 100,
    txCount := 1, contractAddress := "0xaaa", created := 0, size := TokenSize.small }

/-- The snapshot produced from rowTokenB. -/
def procTokenB : TokenData :=
  { priceUSD := 1, totalValueLockedUSD := 50, volumeUSD := 40, periodStartUnix := 0,
    totalValueLocked := 50, name := "Beta", symbol := "BET", tokenTotalValueLocked := 50,
    txCount := 1, contractAddress := "0xbbb", created := 0, size := TokenSize.small }

/-- C1: the claim says the snapshot returned by fetchTokenDataForTimestamp is
sorted descending by heat ratio (volume over TVL, 0 on zero TVL).  The code
intends this (the comment above the final sort says so, and the unused
volume and tvl locals of the map callback show the ratio was meant to be
computed) but compares a heatRatio field that is never set, so the comparator
is NaN, ES SortCompare turns it into +0 and the stable sort is a no-op: the
output stays sorted descending by TVL.  On the two-row universe below, the
returned order is Alpha (heat 1/10) before Beta (heat 4/5), which violates
descending heat order. -/
theorem c1_heat_order_bug :
    fetchTokenDataForTimestamp [rowTokenA, rowTokenB] = some [procTokenA, procTokenB]
  ∧ ¬ List.Pairwise
        (fun a b => calculateHeatRatio b ≤ calculateHeatRatio a)
        [procTokenA, procTokenB] := by
  constructor
  · decide
  · intro h
    have hab := List.rel_of_pairwise_cons h (List.mem_singleton.mpr rfl)
    rw [calculateHeatRatio, calculateHeatRatio] at hab
    norm_num [procTokenA, procTokenB] at hab

/-- C2 counterexample: overriding all five weights with 0 (a non-negative
override map) makes the merged weight sum 0; the normalized weights then do
not sum to 1 — in JS each weight is NaN, in the rational model each is 0. -/
def allZeroOverride : PartialScoringWeights :=
  { tvl := some 0, volume := some 0, netBuys := some 0, goodTrader := some 0, heat := some 0 }

/-- C2 fails as stated: for the all-zero override the normalized weights do
not sum to 1. -/
theorem c2_counterexample :
    weightSum (dynamicScoreWeights allZeroOverride) ≠ 1 := by
  norm_num [dynamicScoreWeights, normalizeWeights, mergeWeights, weightSum, allZeroOverride]

/-- C2 amended: for any partial override with non-negative supplied values,
provided the merged weights do not sum to 0, the normalized weights computed
by dynamicScore sum to exactly 1 and are all non-negative — even when the
overrides themselves do not sum to 1. -/
theorem c2_normalized_weights (w : PartialScoringWeights)
    (htvl : ∀ x, w.tvl = some x → 0 ≤ x)
    (hvol : ∀ x, w.volume = some x → 0 ≤ x)
    (hnet : ∀ x, w.netBuys = some x → 0 ≤ x)
    (hgood : ∀ x, w.goodTrader = some x → 0 ≤ x)
    (hheat : ∀ x, w.heat = some x → 0 ≤ x)
    (hsum : weightSum (mergeWeights w) ≠ 0) :
    weightSum (dynamicScoreWeights w) = 1
  ∧ 0 ≤ (dynamicScoreWeights w).tvl
  ∧ 0 ≤ (dynamicScoreWeights w).volume
  ∧ 0 ≤ (dynamicScoreWeights w).netBuys
  ∧ 0 ≤ (dynamicScoreWeights w).goodTrader
  ∧ 0 ≤ (dynamicScoreWeights w).heat := by
  have hgetD : ∀ (o : Option ℚ) (d : ℚ), 0 ≤ d → (∀ x, o = some x → 0 ≤ x) → 0 ≤ o.getD d := by
    intro o d hd ho
    cases o with
    | none => exact hd
    | some x => exact ho x rfl
  have ht : 0 ≤ (mergeWeights w).tvl := hgetD _ _ (by norm_num [DEFAULT_WEIGHTS]) htvl
  have hv : 0 ≤ (mergeWeights w).volume := hgetD _ _ (by norm_num [DEFAULT_WEIGHTS]) hvol
  have hn : 0 ≤ (mergeWeights w).netBuys := hgetD _ _ (by norm_num [DEFAULT_WEIGHTS]) hnet
  have hg : 0 ≤ (mergeWeights w).goodTrader := hgetD _ _ (by norm_num [DEFAULT_WEIGHTS]) hgood
  have hh : 0 ≤ (mergeWeights w).heat := hgetD _ _ (by norm_num [DEFAULT_WEIGHTS]) hheat
  have hS : 0 ≤ weightSum (mergeWeights w) := by
    unfold weightSum
    have := add_nonneg (add_nonneg (add_nonneg (add_nonneg ht hv) hn) hg) hh
    exact this
  refine ⟨?_, div_nonneg ht hS, div_nonneg hv hS, div_nonneg hn hS,
    div_nonneg hg hS, div_nonneg hh hS⟩
  show (mergeWeights w).tvl / weightSum (mergeWeights w)
      + (mergeWeights w).volume / weightSum (mergeWeights w)
      + (mergeWeights w).netBuys / weightSum (mergeWeights w)
      + (mergeWeights w).goodTrader / weightSum (mergeWeights w)
      + (mergeWeights w).heat / weightSum (mergeWeights w) = 1
  rw [div_add_div_same, div_add_div_same, div_add_div_same, div_add_div_same]
  exact div_self hsum

/-- C2 witness: a partial override supplying tvl 1/2 and heat 3/2 (the
merged weights sum to 53/20, not 1) still normalizes to weights summing to 1
with a non-negative tvl weight. -/
theorem c2_normalized_weights_witness :
    weightSum (dynamicScoreWeights
      { tvl := some (1/2), volume := none, netBuys := none,
        goodTrader := none, heat := some (3/2) }) = 1
  ∧ 0 ≤ (dynamicScoreWeights
      { tvl := some (1/2), volume := none, netBuys := none,
        goodTrader := none, heat := some (3/2) }).tvl := by
  have h := c2_normalized_weights
    { tvl := some (1/2), volume := none, netBuys := none,
      goodTrader := none, heat := some (3/2) }
    (by intro x hx; cases hx; norm_num)
    (by intro x hx; cases hx)
    (by intro x hx; cases hx)
    (by intro x hx; cases hx)
    (by intro x hx; cases hx; norm_num)
    (by norm_num [weightSum, mergeWeights, DEFAULT_WEIGHTS])
  exact ⟨h.1, h.2.1⟩

/-- C4: fetchAllTokens returns the current hour bucket data whenever that
bucket yields data (fetchTokenDataForTimestamp is non-null, which happens
exactly when the upstream pages were non-empty); falls back to the previous
hour bucket without raising when the current bucket yields null; and raises
exactly when both buckets yield null. -/
theorem c4_hour_bucket_fallback (currentRows previousRows : List TheGraphTokenData) :
    (fetchTokenDataForTimestamp currentRows = none ↔ currentRows = [])
  ∧ (∀ result, fetchTokenDataForTimestamp currentRows = some result →
      fetchAllTokens currentRows previousRows = Except.ok result)
  ∧ (fetchTokenDataForTimestamp currentRows = none →
      ∀ result, fetchTokenDataForTimestamp previousRows = some result →
        fetchAllTokens currentRows previousRows = Except.ok result)
  ∧ ((∃ msg, fetchAllTokens currentRows previousRows = Except.error msg) ↔
      (fetchTokenDataForTimestamp currentRows = none ∧
        fetchTokenDataForTimestamp previousRows = none)) := by
  refine ⟨?_, ?_, ?_, ?_⟩
  · unfold fetchTokenDataForTimestamp
    cases currentRows <;> simp
  · intro result hc
    unfold fetchAllTokens
    rw [hc]
  · intro hc result hp
    unfold fetchAllTokens
    rw [hc, hp]
  · constructor
    · rintro ⟨msg, hmsg⟩
      unfold fetchAllTokens at hmsg
      cases hc : fetchTokenDataForTimestamp currentRows with
      | some r => rw [hc] at hmsg; exact absurd hmsg (by simp)
      | none =>
        rw [hc] at hmsg
        cases hp : fetchTokenDataForTimestamp previousRows with
        | some r => rw [hp] at hmsg; exact absurd hmsg (by simp)
        | none => exact ⟨rfl, rfl⟩
    · rintro ⟨hc, hp⟩
      refine ⟨"No data found for current or previous hour", ?_⟩
      unfold fetchAllTokens
      rw [hc, hp]

/-- C4 witness, the scenario of the spec: the current bucket yields nothing
(empty page concatenation), the previous bucket has rows, and fetchAllTokens
returns the processed previous-hour data without raising; with data in the
current bucket that data is returned directly. -/
theorem c4_hour_bucket_fallback_witness :
    fetchAllTokens [] [rowTokenB] = Except.ok (processRows [rowTokenB])
  ∧ fetchAllTokens [rowTokenA] [] = Except.ok (processRows [rowTokenA]) :=
  ⟨(c4_hour_bucket_fallback [] [rowTokenB]).2.2.1 rfl (processRows [rowTokenB]) rfl,
   (c4_hour_bucket_fallback [rowTokenA] []).2.1 (processRows [rowTokenA]) rfl⟩

/-- Clamping to the 0..10 band is monotone. -/
theorem clamp_mono {x y : ℚ} (h : x ≤ y) : max 0 (min 10 x) ≤ max 0 (min 10 y) :=
  max_le_max le_rfl (min_le_min le_rfl h)

/-- C5: scaleTo0to10 returns exactly 5 on a degenerate range regardless of
the value; on a proper range it is monotone non-decreasing in the value
without inversion and non-increasing with inversion, maps the range
endpoints to 0 and 10 (direction-adjusted), and every returned sub-score
lies in the closed band 0..10 for all inputs. -/
theorem c5_scale_properties :
    (∀ val minVal invert, scaleTo0to10 val minVal minVal invert = 5)
  ∧ (∀ minVal maxVal lo hi, minVal < maxVal → lo ≤ hi →
      scaleTo0to10 lo minVal maxVal false ≤ scaleTo0to10 hi minVal maxVal false)
  ∧ (∀ minVal maxVal lo hi, minVal < maxVal → lo ≤ hi →
      scaleTo0to10 hi minVal maxVal true ≤ scaleTo0to10 lo minVal maxVal true)
  ∧ (∀ minVal maxVal, minVal < maxVal →
      scaleTo0to10 minVal minVal maxVal false = 0
      ∧ scaleTo0to10 maxVal minVal maxVal false = 10
      ∧ scaleTo0to10 maxVal minVal maxVal true = 0
      ∧ scaleTo0to10 minVal minVal maxVal true = 10)
  ∧ (∀ val minVal maxVal invert,
      0 ≤ scaleTo0to10 val minVal maxVal invert
      ∧ scaleTo0to10 val minVal maxVal invert ≤ 10) := by
  have hne : ∀ {minVal maxVal : ℚ}, minVal < maxVal → ¬ (maxVal = minVal) :=
    fun h => ne_of_gt h
  refine ⟨?_, ?_, ?_, ?_, ?_⟩
  · intro val minVal invert
    simp [scaleTo0to10]
  · intro minVal maxVal lo hi h hle
    rw [scaleTo0to10, scaleTo0to10, if_neg (hne h), if_neg (hne h)]
    have hd : (0 : ℚ) < maxVal - minVal := sub_pos.mpr h
    refine clamp_mono ?_
    have hr : (lo - minVal) / (maxVal - minVal) ≤ (hi - minVal) / (maxVal - minVal) :=
      (div_le_div_iff_of_pos_right hd).mpr (by linarith)
    simpa using mul_le_mul_of_nonneg_left hr (by norm_num : (0 : ℚ) ≤ 10)
  · intro minVal maxVal lo hi h hle
    rw [scaleTo0to10, scaleTo0to10, if_neg (hne h), if_neg (hne h)]
    have hd : (0 : ℚ) < maxVal - minVal := sub_pos.mpr h
    refine clamp_mono ?_
    have hr : (maxVal - hi) / (maxVal - minVal) ≤ (maxVal - lo) / (maxVal - minVal) :=
      (div_le_div_iff_of_pos_right hd).mpr (by linarith)
    simpa using mul_le_mul_of_nonneg_left hr (by norm_num : (0 : ℚ) ≤ 10)
  · intro minVal maxVal h
    have hd : (0 : ℚ) < maxVal - minVal := sub_pos.mpr h
    have hdne : maxVal - minVal ≠ 0 := ne_of_gt hd
    refine ⟨?_, ?_, ?_, ?_⟩ <;>
      simp [scaleTo0to10, if_neg (hne h), sub_self, zero_div, div_self hdne]
  · intro val minVal maxVal invert
    rw [scaleTo0to10]
    by_cases heq : maxVal = minVal
    · rw [if_pos heq]
      norm_num
    · rw [if_neg heq]
      constructor
      · exact le_max_left 0 _
      · exact max_le (by norm_num) (min_le_left 10 _)

/-- C5 witness: the degenerate range returns 5; on the range 0..10 the scale
is monotone both ways, the lower endpoint scales to 0 and every sub-score is
bounded below by 0. -/
theorem c5_scale_properties_witness :
    scaleTo0to10 7 3 3 false = 5
  ∧ scaleTo0to10 2 0 10 false ≤ scaleTo0to10 7 0 10 false
  ∧ scaleTo0to10 7 0 10 true ≤ scaleTo0to10 2 0 10 true
  ∧ scaleTo0to10 0 0 10 false = 0
  ∧ 0 ≤ scaleTo0to10 4 0 10 true :=
  ⟨c5_scale_properties.1 7 3 false,
   c5_scale_properties.2.1 0 10 2 7 (by norm_num) (by norm_num),
   c5_scale_properties.2.2.1 0 10 2 7 (by norm_num) (by norm_num),
   (c5_scale_properties.2.2.2.1 0 10 (by norm_num)).1,
   (c5_scale_properties.2.2.2.2 4 0 10 true).1⟩

/-- assignSizesAux preserves the length. -/
theorem assignSizesAux_length (third twoThirds : Nat) :
    ∀ (i : Nat) (l : List TokenData), (assignSizesAux third twoThirds i l).length = l.length
  | _, [] => rfl
  | i, _ :: rest => by
    simp [assignSizesAux, assignSizesAux_length third twoThirds (i + 1) rest]

/-- The size fields produced by assignSizesAux are sizeAt of the running
index. -/
theorem assignSizesAux_map_size (third twoThirds : Nat) :
    ∀ (i : Nat) (l : List TokenData),
      (assignSizesAux third twoThirds i l).map TokenData.size =
        (List.range' i l.length).map (sizeAt third twoThirds)
  | _, [] => rfl
  | i, _ :: rest => by
    rw [List.length_cons, List.range'_succ i rest.length 1]
    simp [assignSizesAux, assignSizesAux_map_size third twoThirds (i + 1) rest]

/-- C6: over any universe list (in particular the TVL-descending one built by
the fetcher), the size-bucket assignment labels exactly the first floor(N/3)
positions large, the next floor(N/3) positions medium, and every remaining
position small. -/
theorem c6_size_buckets (l : List TokenData) :
    (assignSizes l).map TokenData.size =
      List.replicate (l.length / 3) TokenSize.large ++
        (List.replicate (l.length / 3) TokenSize.medium ++
          List.replicate (l.length - 2 * (l.length / 3)) TokenSize.small) := by
  rw [assignSizes, assignSizesAux_map_size]
  apply List.ext_getElem
  · simp [List.length_range']
    omega
  · intro i h1 h2
    rw [List.getElem_map, List.getElem_range']
    simp only [List.length_map, List.length_range'] at h1
    by_cases hA : i < l.length / 3
    · rw [List.getElem_append_left (by simpa using hA), List.getElem_replicate]
      simp [sizeAt, hA]
    · rw [List.getElem_append_right (by simpa using hA)]
      by_cases hB : i < 2 * (l.length / 3)
      · rw [List.getElem_append_left (by simp; omega), List.getElem_replicate]
        simp only [sizeAt]
        rw [if_neg (by omega), if_pos (by omega)]
      · rw [List.getElem_append_right (by simp; omega), List.getElem_replicate]
        simp only [sizeAt]
        rw [if_neg (by omega), if_neg (by omega)]

/-- assignSizesAux rewrites only the size field: the name and symbol columns
are unchanged. -/
theorem assignSizesAux_name_symbol (third twoThirds : Nat) :
    ∀ (i : Nat) (l : List TokenData),
      (assignSizesAux third twoThirds i l).map (fun t => (t.name, t.symbol)) =
        l.map (fun t => (t.name, t.symbol))
  | _, [] => rfl
  | i, _ :: rest => by
    simp [assignSizesAux, assignSizesAux_name_symbol third twoThirds (i + 1) rest]

/-- C10: every snapshot entry returned by fetchTokenDataForTimestamp has a
non-empty name and a non-empty symbol — rows with a missing or empty name or
symbol are excluded by the filter, on top of the documented USD/ETH substring
exclusion, and the later pipeline stages never touch those two fields. -/
theorem c10_nonempty_name_symbol (rows : List TheGraphTokenData)
    (result : List TokenData) (h : fetchTokenDataForTimestamp rows = some result) :
    ∀ t ∈ result, t.name ≠ "" ∧ t.symbol ≠ "" := by
  intro t ht
  rw [fetchTokenDataForTimestamp] at h
  by_cases hrows : rows.isEmpty
  · rw [if_pos hrows] at h
    exact absurd h (by simp)
  · rw [if_neg hrows] at h
    have hres : result = processRows rows := (Option.some.inj h).symm
    subst hres
    simp only [processRows] at ht
    rw [List.mem_insertionSort] at ht
    have hpair : (t.name, t.symbol) ∈
        (List.insertionSort tvlDesc ((rows.filter passesFilter).map processRaw)).map
          (fun u => (u.name, u.symbol)) := by
      rw [show List.insertionSort tvlDesc ((rows.filter passesFilter).map processRaw) =
            (List.insertionSort tvlDesc ((rows.filter passesFilter).map processRaw)) from rfl]
      rw [← assignSizesAux_name_symbol
        ((List.insertionSort tvlDesc ((rows.filter passesFilter).map processRaw)).length / 3)
        ((List.insertionSort tvlDesc ((rows.filter passesFilter).map processRaw)).length / 3 * 2) 0]
      exact List.mem_map_of_mem _ ht
    rw [List.mem_map] at hpair
    obtain ⟨u, hu, hs⟩ := hpair
    rw [List.mem_insertionSort, List.mem_map] at hu
    obtain ⟨raw, hraw, rfl⟩ := hu
    have hp := List.of_mem_filter hraw
    rw [passesFilter] at hp
    simp only [Bool.and_eq_true, Bool.not_eq_true', beq_eq_false_iff_ne] at hp
    have hname : (processRaw raw).name = raw.token.name := rfl
    have hsym : (processRaw raw).symbol = raw.token.symbol := rfl
    have ht1 : t.name = raw.token.name := by
      have := congrArg Prod.fst hs
      simpa [hname] using this.symm
    have ht2 : t.symbol = raw.token.symbol := by
      have := congrArg Prod.snd hs
      simpa [hsym] using this.symm
    rw [ht1, ht2]
    exact ⟨hp.1.1.1.1.1, hp.1.1.1.1.2⟩

/-- C10 witness: on the concrete two-row universe, the first returned entry
has non-empty name and symbol. -/
theorem c10_nonempty_name_symbol_witness :
    procTokenA.name ≠ "" ∧ procTokenA.symbol ≠ "" :=
  c10_nonempty_name_symbol [rowTokenA, rowTokenB] [procTokenA, procTokenB]
    (by decide) procTokenA (by simp)

/-- Map.set makes the key resolvable to the new value. -/
theorem mapGet_mapSet_self {b : Type} (m : List (String × b)) (k : String) (v : b) :
    mapGet (mapSet m k v) k = some v := by
  induction m with
  | nil => simp [mapSet, mapGet]
  | cons p rest ih =>
    obtain ⟨key, w⟩ := p
    by_cases hk : key = k
    · subst hk
      simp [mapSet, mapGet]
    · simp [mapSet, mapGet, hk, ih]

/-- Map.set leaves every other key untouched. -/
theorem mapGet_mapSet_ne {b : Type} (m : List (String × b)) (k q : String) (v : b)
    (h : k ≠ q) : mapGet (mapSet m k v) q = mapGet m q := by
  induction m with
  | nil => simp [mapSet, mapGet, h]
  | cons p rest ih =>
    obtain ⟨key, w⟩ := p
    by_cases hk : key = k
    · subst hk
      simp [mapSet, mapGet, h]
    · simp [mapSet, mapGet, hk, ih]

/-- Map.set never removes a resolvable key. -/
theorem mapGet_mapSet_ne_none {b : Type} (m : List (String × b)) (k q : String) (v : b)
    (h : mapGet m q ≠ none) : mapGet (mapSet m k v) q ≠ none := by
  by_cases hk : k = q
  · subst hk
    rw [mapGet_mapSet_self]
    simp
  · rw [mapGet_mapSet_ne m k q v hk]
    exact h

/-- Every element of a map after Map.set is the new pair or an old element. -/
theorem mem_mapSet {b : Type} (m : List (String × b)) (k : String) (v : b)
    (e : String × b) (he : e ∈ mapSet m k v) : e = (k, v) ∨ e ∈ m := by
  induction m with
  | nil =>
    simp [mapSet] at he
    exact Or.inl he
  | cons p rest ih =>
    obtain ⟨key, w⟩ := p
    by_cases hk : key = k
    · subst hk
      simp only [mapSet, if_pos rfl] at he
      rcases List.mem_cons.mp he with h1 | h1
      · exact Or.inl h1
      · exact Or.inr (List.mem_cons_of_mem _ h1)
    · simp only [mapSet, if_neg hk] at he
      rcases List.mem_cons.mp he with h1 | h1
      · exact Or.inr (h1 ▸ List.mem_cons_self _ _)
      · rcases ih h1 with h2 | h2
        · exact Or.inl h2
        · exact Or.inr (List.mem_cons_of_mem _ h2)

/-- A successful Map.get returns an element of the map. -/
theorem mapGet_mem {b : Type} (m : List (String × b)) (k : String) (v : b)
    (h : mapGet m k = some v) : (k, v) ∈ m := by
  induction m with
  | nil => simp [mapGet] at h
  | cons p rest ih =>
    obtain ⟨key, w⟩ := p
    by_cases hk : key = k
    · subst hk
      rw [mapGet, if_pos rfl] at h
      exact (Option.some.inj h) ▸ List.mem_cons_self _ _
    · rw [mapGet, if_neg hk] at h
      exact List.mem_cons_of_mem _ (ih h)

/-- The pool-insertion fold never removes a resolvable key. -/
theorem insertPoolTokens_preserves (fetched : List Pool)
    (m : List (String × (PToken × PToken))) (k : String)
    (h : mapGet m k ≠ none) : mapGet (insertPoolTokens fetched m) k ≠ none := by
  induction fetched generalizing m with
  | nil => exact h
  | cons p rest ih =>
    exact ih (mapSet m (lower p.id) (p.token0, p.token1))
      (mapGet_mapSet_ne_none m (lower p.id) k (p.token0, p.token1) h)

/-- After the pool-insertion fold, every fetched pool id resolves. -/
theorem insertPoolTokens_mem (fetched : List Pool) (p : Pool) (hp : p ∈ fetched)
    (m : List (String × (PToken × PToken))) :
    mapGet (insertPoolTokens fetched m) (lower p.id) ≠ none := by
  induction fetched generalizing m with
  | nil => cases hp
  | cons q rest ih =>
    rcases List.mem_cons.mp hp with h1 | h1
    · subst h1
      refine insertPoolTokens_preserves rest _ _ ?_
      rw [mapGet_mapSet_self]
      simp
    · exact ih h1 (mapSet m (lower q.id) (q.token0, q.token1))

/-- A stale token pair sitting in the index before a refresh. -/
def stalePair : PToken × PToken :=
  ({ id := "0xdead", symbol := "OLD0" }, { id := "0xbeef", symbol := "OLD1" })

/-- A pool state whose index still holds an entry for a pool absent from the
next fetch. -/
def staleState : StorerState :=
  { pools := [], swapHistory := [], poolTokens := [("0xoldpool", stalePair)] }

/-- The single pool returned by the next refresh fetch. -/
def freshPool : Pool :=
  { id := "0xnew1", liquidity := "1",
    token0 := { id := "0xt0", symbol := "T0" }, token1 := { id := "0xt1", symbol := "T1" } }

/-- C3 fails as stated: after a successful refresh that fetched only
freshPool, the pools list is replaced wholesale, yet the poolTokens index
still resolves the old key 0xoldpool, which is not the id of any pool in the
new set — prepopulatePools merges into the index and never clears it. -/
theorem c3_counterexample :
    (refreshPools 0 [freshPool] staleState).pools = [freshPool]
  ∧ mapGet (refreshPools 0 [freshPool] staleState).poolTokens "0xoldpool" = some stalePair
  ∧ [freshPool].map (fun p => lower p.id) = ["0xnew1"]
  ∧ "0xoldpool" ≠ "0xnew1" := by
  refine ⟨rfl, by decide, by decide, by decide⟩

/-- C3 amended: after every successful refreshPools call the in-memory pool
list equals exactly the newly fetched pools and the poolTokens index resolves
every pool of the new set; however, the index is merged rather than rebuilt —
every key resolvable before the refresh is still resolvable after it. -/
theorem c3_refresh_pools (now : Int) (fetched : List Pool) (s : StorerState) :
    (refreshPools now fetched s).pools = fetched
  ∧ (∀ p ∈ fetched, mapGet (refreshPools now fetched s).poolTokens (lower p.id) ≠ none)
  ∧ (∀ k, mapGet s.poolTokens k ≠ none →
      mapGet (refreshPools now fetched s).poolTokens k ≠ none) := by
  refine ⟨rfl, ?_, ?_⟩
  · intro p hp
    show mapGet (insertPoolTokens fetched s.poolTokens) (lower p.id) ≠ none
    exact insertPoolTokens_mem fetched p hp s.poolTokens
  · intro k hk
    show mapGet (insertPoolTokens fetched s.poolTokens) k ≠ none
    exact insertPoolTokens_preserves fetched s.poolTokens k hk

/-- C3 witness: on the concrete refresh above, the new pool resolves in the
index and the pre-existing key survives. -/
theorem c3_refresh_pools_witness :
    mapGet (refreshPools 0 [freshPool] staleState).poolTokens (lower freshPool.id) ≠ none
  ∧ mapGet (refreshPools 0 [freshPool] staleState).poolTokens "0xoldpool" ≠ none :=
  ⟨(c3_refresh_pools 0 [freshPool] staleState).2.1 freshPool (by simp),
   (c3_refresh_pools 0 [freshPool] staleState).2.2 "0xoldpool" (by decide)⟩

/-- C7: for a decoded swap event on a pool present in the directory index
whose two signed legs have exactly one negative leg, the handler appends to
that pool history exactly one record whose sold token is the negative leg
(amount negated to a positive value) and whose bought token is the other leg
with its amount unchanged; both stored amounts are non-negative. -/
theorem c7_swap_normalization (now : Int) (s : StorerState) (log : SwapLog)
    (token0 token1 : PToken)
    (hlook : mapGet s.poolTokens (lower log.address) = some (token0, token1))
    (hone : (log.amount0 < 0 ∧ 0 ≤ log.amount1) ∨ (0 ≤ log.amount0 ∧ log.amount1 < 0)) :
    mapGet (handleLog now s log).swapHistory (lower log.address) =
      some ((mapGet s.swapHistory (lower log.address)).getD []
        ++ [decodeSwap now log.sender token0 token1 log.amount0 log.amount1])
  ∧ 0 ≤ (decodeSwap now log.sender token0 token1 log.amount0 log.amount1).soldToken.amount
  ∧ 0 ≤ (decodeSwap now log.sender token0 token1 log.amount0 log.amount1).boughtToken.amount
  ∧ (log.amount0 < 0 →
      decodeSwap now log.sender token0 token1 log.amount0 log.amount1 =
        { timestamp := now, sender := log.sender,
          soldToken := { address := token0.id, symbol := token0.symbol, amount := -log.amount0 },
          boughtToken := { address := token1.id, symbol := token1.symbol, amount := log.amount1 } })
  ∧ (0 ≤ log.amount0 →
      decodeSwap now log.sender token0 token1 log.amount0 log.amount1 =
        { timestamp := now, sender := log.sender,
          soldToken := { address := token1.id, symbol := token1.symbol, amount := -log.amount1 },
          boughtToken := { address := token0.id, symbol := token0.symbol, amount := log.amount0 } }) := by
  refine ⟨?_, ?_, ?_, ?_, ?_⟩
  · simp only [handleLog, hlook]
    exact mapGet_mapSet_self s.swapHistory (lower log.address) _
  · rcases hone with ⟨h0, h1⟩ | ⟨h0, h1⟩
    · rw [decodeSwap, if_pos h0]
      show 0 ≤ -log.amount0
      omega
    · rw [decodeSwap, if_neg (not_lt.mpr h0)]
      show 0 ≤ -log.amount1
      omega
  · rcases hone with ⟨h0, h1⟩ | ⟨h0, h1⟩
    · rw [decodeSwap, if_pos h0]
      exact h1
    · rw [decodeSwap, if_neg (not_lt.mpr h0)]
      exact h0
  · intro h0
    rw [decodeSwap, if_pos h0]
  · intro h0
    rw [decodeSwap, if_neg (not_lt.mpr h0)]

/-- First token of the pool watched in the C7 witness. -/
def watchTokenA : PToken := { id := "0xtoka", symbol := "TOKA" }

/-- Second token of the pool watched in the C7 witness. -/
def watchTokenB : PToken := { id := "0xtokb", symbol := "TOKB" }

/-- A storer state whose index knows the watched pool. -/
def watchState : StorerState :=
  { pools := [], swapHistory := [], poolTokens := [("0xpool", (watchTokenA, watchTokenB))] }

/-- The Swap event of the spec scenario: leg0 is -50, leg1 is +120 (the
address arrives checksum-cased and is lowercased for the lookup). -/
def watchLog : SwapLog :=
  { address := "0xPOOL", sender := "0xsender", amount0 := -50, amount1 := 120 }

/-- C7 witness, the scenario of the spec: the event with legs -50 and +120 on
the pool of (watchTokenA, watchTokenB) stores sold = 50 of watchTokenA and
bought = 120 of watchTokenB. -/
theorem c7_swap_normalization_witness :
    mapGet (handleLog 1000 watchState watchLog).swapHistory (lower watchLog.address) =
      some ((mapGet watchState.swapHistory (lower watchLog.address)).getD []
        ++ [decodeSwap 1000 watchLog.sender watchTokenA watchTokenB
              watchLog.amount0 watchLog.amount1])
  ∧ decodeSwap 1000 watchLog.sender watchTokenA watchTokenB
        watchLog.amount0 watchLog.amount1 =
      { timestamp := 1000, sender := "0xsender",
        soldToken := { address := "0xtoka", symbol := "TOKA", amount := 50 },
        boughtToken := { address := "0xtokb", symbol := "TOKB", amount := 120 } } := by
  have h := c7_swap_normalization 1000 watchState watchLog watchTokenA watchTokenB
    (by decide) (Or.inl (by decide))
  refine ⟨h.1, ?_⟩
  rw [h.2.2.2.1 (by decide)]
  decide

/-- C8: the good-trader feed is sorted descending by timestamp; it is a
permutation of the per-swap projections of the retained history; a swap
inside the trailing hour whose sender is allow-listed contributes exactly one
SELL entry carrying its sold leg and exactly one BUY entry carrying its
bought leg; a swap outside the hour window or from a non-listed sender
contributes nothing. -/
theorem c8_good_trader_activity (allowList : List String) (now : Int) (s : StorerState) :
    List.Sorted tsDesc (getGoodTraderActivity allowList now s)
  ∧ List.Perm (getGoodTraderActivity allowList now s)
      ((allSwaps s).flatMap (projectSwap allowList (now - 60 * 60 * 1000)))
  ∧ (∀ swap : SwapRecord, now - 60 * 60 * 1000 ≤ swap.timestamp →
      allowList.contains swap.sender = true →
      projectSwap allowList (now - 60 * 60 * 1000) swap =
        [ { trader := swap.sender, timestamp := swap.timestamp,
            action := TradeAction.sell, token := swap.soldToken },
          { trader := swap.sender, timestamp := swap.timestamp,
            action := TradeAction.buy, token := swap.boughtToken } ])
  ∧ (∀ swap : SwapRecord,
      swap.timestamp < now - 60 * 60 * 1000 ∨ allowList.contains swap.sender = false →
      projectSwap allowList (now - 60 * 60 * 1000) swap = []) := by
  refine ⟨List.sorted_insertionSort tsDesc _, List.perm_insertionSort tsDesc _, ?_, ?_⟩
  · intro swap ht hs
    rw [projectSwap, if_neg (not_lt.mpr ht)]
    rw [if_pos (by simpa using hs)]
  · intro swap h
    rcases h with h | h
    · rw [projectSwap, if_pos h]
    · rw [projectSwap]
      by_cases hts : swap.timestamp < now - 60 * 60 * 1000
      · rw [if_pos hts]
      · rw [if_neg hts]
        rw [if_neg (by simpa using h)]

/-- A swap inside the trailing hour from an allow-listed sender. -/
def recentSwap : SwapRecord :=
  { timestamp := 5000000, sender := "0xgood",
    soldToken := { address := "0xtoka", symbol := "TOKA", amount := 50 },
    boughtToken := { address := "0xtokb", symbol := "TOKB", amount := 120 } }

/-- A swap from the same sender but older than the trailing hour. -/
def agedSwap : SwapRecord :=
  { timestamp := 100, sender := "0xgood",
    soldToken := { address := "0xtoka", symbol := "TOKA", amount := 7 },
    boughtToken := { address := "0xtokb", symbol := "TOKB", amount := 9 } }

/-- A state retaining both swaps in one pool history. -/
def traderState : StorerState :=
  { pools := [], poolTokens := [], swapHistory := [("0xpool", [recentSwap, agedSwap])] }

/-- C8 witness: at now = 5400000 with allow-list 0xgood, the produced feed is
sorted descending by timestamp, the recent swap projects to exactly one SELL
and one BUY entry carrying its two legs, and the aged swap projects to
nothing. -/
theorem c8_good_trader_activity_witness :
    List.Sorted tsDesc (getGoodTraderActivity ["0xgood"] 5400000 traderState)
  ∧ projectSwap ["0xgood"] (5400000 - 60 * 60 * 1000) recentSwap =
      [ { trader := recentSwap.sender, timestamp := recentSwap.timestamp,
          action := TradeAction.sell, token := recentSwap.soldToken },
        { trader := recentSwap.sender, timestamp := recentSwap.timestamp,
          action := TradeAction.buy, token := recentSwap.boughtToken } ]
  ∧ projectSwap ["0xgood"] (5400000 - 60 * 60 * 1000) agedSwap = [] := by
  have h := c8_good_trader_activity ["0xgood"] 5400000 traderState
  exact ⟨h.1, h.2.2.1 recentSwap (by decide) (by decide),
    h.2.2.2 agedSwap (Or.inl (by decide))⟩

/-- One leg handed to updateTokenSummary by the summary-rebuild loop:
address, symbol, amount and the sold flag. -/
structure SummaryLeg where
  address : String
  symbol : String
  amount : Int
  isSold : Bool
deriving DecidableEq, Repr

/-- The summary-rebuild fold of updateTokenSummaries: the summaries map is
cleared, then every leg of the retained history is folded through
updateTokenSummary. -/
def foldSummaries (legs : List SummaryLeg) : List (String × TokenSummary) :=
  legs.foldl (fun m leg => updateTokenSummary m leg.address leg.symbol leg.amount leg.isSold) []

/-- updateTokenSummary preserves the net-amount invariant of every summary in
the map. -/
theorem updateTokenSummary_invariant (m : List (String × TokenSummary))
    (hm : ∀ e ∈ m, e.2.netAmount = e.2.totalBought - e.2.totalSold)
    (address symbol : String) (amount : Int) (isSold : Bool) :
    ∀ e ∈ updateTokenSummary m address symbol amount isSold,
      e.2.netAmount = e.2.totalBought - e.2.totalSold := by
  intro e he
  simp only [updateTokenSummary] at he
  rcases mem_mapSet _ _ _ _ he with h1 | h1
  · subst h1
    have hsum : ((mapGet m address).getD
        { symbol := symbol, address := address, totalSold := 0, totalBought := 0
          swapCount := 0, netAmount := 0 }).netAmount =
        ((mapGet m address).getD
        { symbol := symbol, address := address, totalSold := 0, totalBought := 0
          swapCount := 0, netAmount := 0 }).totalBought -
        ((mapGet m address).getD
        { symbol := symbol, address := address, totalSold := 0, totalBought := 0
          swapCount := 0, netAmount := 0 }).totalSold := by
      cases hget : mapGet m address with
      | none => simp
      | some v =>
        have := hm (address, v) (mapGet_mem m address v hget)
        simpa using this
    cases isSold <;> simp <;> omega
  · exact hm e h1

/-- C9: starting from cleared summaries (every address begins at the zero
summary), after folding any sequence of swap legs through updateTokenSummary
every token summary satisfies netAmount = totalBought - totalSold. -/
theorem c9_net_amount_invariant (legs : List SummaryLeg) :
    ∀ e ∈ foldSummaries legs, e.2.netAmount = e.2.totalBought - e.2.totalSold := by
  suffices h : ∀ (m : List (String × TokenSummary)),
      (∀ e ∈ m, e.2.netAmount = e.2.totalBought - e.2.totalSold) →
      ∀ e ∈ legs.foldl
        (fun m leg => updateTokenSummary m leg.address leg.symbol leg.amount leg.isSold) m,
        e.2.netAmount = e.2.totalBought - e.2.totalSold by
    exact h [] (by simp)
  induction legs with
  | nil =>
    intro m hm
    exact hm
  | cons leg rest ih =>
    intro m hm
    exact ih _ (updateTokenSummary_invariant m hm leg.address leg.symbol leg.amount leg.isSold)

/-- The single summary entry produced by folding a 50 sell and a 120 buy of
the same address. -/
def sampleSummaryEntry : String × TokenSummary :=
  ("0xa", { symbol := "A", address := "0xa", totalSold := 50, totalBought := 120,
            swapCount := 2, netAmount := 70 })

/-- C9 witness: on the concrete two-leg fold the resulting summary satisfies
the net-amount invariant. -/
theorem c9_net_amount_invariant_witness :
    sampleSummaryEntry.2.netAmount =
      sampleSummaryEntry.2.totalBought - sampleSummaryEntry.2.totalSold :=
  c9_net_amount_invariant
    [ { address := "0xa", symbol := "A", amount := 50, isSold := true },
      { address := "0xa", symbol := "A", amount := 120, isSold := false } ]
    sampleSummaryEntry (by decide)

end Eliza



